import Mathlib

/-!
Shallow embedding of lib/Conversion/StructuredToMemref/StructuredToMemref.cpp.

The file models the three rewrite patterns of that source file:
`MakeTensorPtrConverter` (the pointer materializer), `LoadConverter` and
`StoreConverter`.  MLIR `OpFoldResult` values (either a compile-time integer
attribute or a runtime SSA value) are modelled by `OFR`; runtime values carry
the integer they denote, so the arithmetic the generated IR performs is
expressed directly over `Int`.  `arith.remsi` and `arith.divsi` are C-style
signed remainder and division, i.e. `Int.tmod` and `Int.tdiv`; `arith.minsi`
is `min`.
-/

/-- An MLIR `OpFoldResult`: a compile-time integer attribute (`static`) or a
runtime SSA value (`dyn`).  Both carry the integer they denote. -/
inductive OFR where
  | static (v : Int)
  | dyn (v : Int)
deriving DecidableEq

/-- The integer denoted by a mixed static/runtime quantity (the value an
emitted `ofrToIndexValue` materializes). -/
def OFR.val : OFR → Int
  | .static v => v
  | .dyn v => v

/-- Whether the quantity is a compile-time constant. -/
def OFR.isStatic : OFR → Bool
  | .static _ => true
  | .dyn _ => false

/-- Model of `getIntAttr`: the integer attribute of an `OpFoldResult`, if the
quantity folds to a compile-time constant. -/
def getIntAttr : OFR → Option Int
  | .static v => some v
  | .dyn _ => none

/-- Modelled from the spec: fold-or-emit addition of two mixed static/runtime
index quantities (`addOFRs` of `Analysis/OpFoldResultUtils`, which is not part
of the reviewed source file): the result is statically known exactly when both
operands are static. -/
def addOFRs : OFR → OFR → OFR
  | .static a, .static b => .static (a + b)
  | a, b => .dyn (a.val + b.val)

/-- The kind of a `tts.make_tptr` op, as tested by `isBlockPtr`,
`isStructuredPtr` and `isSplitPtr` in `matchAndRewrite`; `other` stands for an
op on which all three predicates are false. -/
inductive PtrKind where
  | structured
  | block
  | split
  | other
deriving DecidableEq

/-- A `tts.make_tptr` op: base handle, mixed per-dimension offsets and
strides, static sizes, mixed wrap bounds (`shape`), dimension order and
kind. -/
structure MakeTensorPtrOp where
  base : Int
  offsets : List OFR
  strides : List OFR
  sizes : List Int
  shape : List OFR
  order : List Nat
  kind : PtrKind

/-- MLIR `ShapedType::kDynamic` (`int64_t` minimum). -/
def kDynamic : Int := -(2 ^ 63)

namespace MakeTensorPtrOp

/-- Model of `op.getStaticShape()`: runtime shape entries appear as
`kDynamic`. -/
def getStaticShape (op : MakeTensorPtrOp) : List Int :=
  op.shape.map fun o => match o with
    | .static v => v
    | .dyn _ => kDynamic

end MakeTensorPtrOp

/-- A `memref.reinterpret_cast` result: base + scalar offset + sizes +
strides.  Quantities produced as runtime SSA values are tagged `dyn`. -/
structure ReinterpretCastOp where
  base : Int
  offset : OFR
  sizes : List OFR
  strides : List OFR
deriving DecidableEq

/-- The wrap marker attached to the pair of casts of a split pointer
(`WRAP_SIDE_BY_SIDE` / `WRAP_STACKED`). -/
inductive WrapType where
  | sideBySide
  | stacked
deriving DecidableEq

/-- The pair of casts produced for a split pointer, bundled with its wrap
marker (the `UnrealizedConversionCastOp` with the unit attribute). -/
structure SplitResult where
  wrap : WrapType
  cast1 : ReinterpretCastOp
  cast2 : ReinterpretCastOp

/-- The value a successful `MakeTensorPtrConverter` rewrite replaces the op
with: a single cast, or a tagged pair for split pointers. -/
inductive LoweredPtr where
  | single (v : ReinterpretCastOp)
  | split (r : SplitResult)

/-- Outcome of one `matchAndRewrite` invocation: whether a diagnostic was
emitted, and the replacement (`none` = the pattern returned `failure()` and
the op was left unrewritten). -/
structure ConvResult where
  diagnosticEmitted : Bool
  result : Option LoweredPtr

namespace MakeTensorPtrConverter

open MakeTensorPtrOp

/-- Inner loop of `getMixedStridesForMemref`: iterates over the reversed
zipped (size, stride) pairs, carrying the running product `accumulate` of the
sizes already visited; a (size = 1, folded stride = 0) pair is replaced by the
running product. -/
def stridesLoop : List (Int × OFR) → Int → List OFR
  | [], _ => []
  | (size, stride) :: rest, accumulate =>
      (if size = 1 ∧ getIntAttr stride = some 0
        then OFR.static accumulate
        else stride)
        :: stridesLoop rest (accumulate * size)

/-- Model of `MakeTensorPtrConverter::getMixedStridesForMemref`: if there are
dimensions with size 1 and stride 0, the 0 stride is replaced with the product
of the sizes of all lower (inner) dimensions; the loop runs over the reversed
size/stride pairs and the result is reversed back. -/
def getMixedStridesForMemref (op : MakeTensorPtrOp) : List OFR :=
  (stridesLoop ((op.sizes.zip op.strides).reverse) 1).reverse

/-- Model of `MakeTensorPtrConverter::accumulateTargetOffset`: the scalar
target offset is the `addOFRs`-fold of all per-dimension offsets, starting
from the static index attribute 0. -/
def accumulateTargetOffset (op : MakeTensorPtrOp) : OFR :=
  op.offsets.foldl addOFRs (.static 0)

/-- Model of `MakeTensorPtrConverter::createSideBySideCastOps` (side-by-side
wraparound, 2-D): with `x = targetOffset remsi N` and `y = targetOffset - x`,
the first chunk starts at `targetOffset` with column count
`min (x + colSize) N - x`, the second starts at `y` with the remaining
columns; both keep `rowSize` and the op strides. -/
def createSideBySideCastOps (op : MakeTensorPtrOp) :
    ReinterpretCastOp × ReinterpretCastOp :=
  let targetOffset := (accumulateTargetOffset op).val
  let rowSize : Int := op.sizes.getD 0 0
  let colSize : Int := op.sizes.getD 1 0
  let modN := (op.shape.getD 1 (.static 0)).val
  let x := Int.tmod targetOffset modN
  let y := targetOffset - x
  let strideVals := op.strides.map OFR.val
  let nextOffset := x + colSize
  let clampedOffset := min nextOffset modN
  let d1 := clampedOffset - x
  let cast1 : ReinterpretCastOp :=
    { base := op.base
      offset := .dyn targetOffset
      sizes := [.dyn rowSize, .dyn d1]
      strides := strideVals.map OFR.dyn }
  let d2 := colSize - d1
  let cast2 : ReinterpretCastOp :=
    { base := op.base
      offset := .dyn y
      sizes := [.dyn rowSize, .dyn d2]
      strides := strideVals.map OFR.dyn }
  (cast1, cast2)

/-- Model of `MakeTensorPtrConverter::createStackedCastOps` (stacked
wraparound, 2-D): with `wrappedAroundOff = targetOffset remsi strideRow` and
`clampedOff = modRow + wrappedAroundOff`, the first chunk has
`(clampedOff - targetOffset) divsi strideRow` rows starting at
`targetOffset`, the second has the remaining rows starting at
`wrappedAroundOff`; both keep `colSize` and the strides. -/
def createStackedCastOps (op : MakeTensorPtrOp) :
    ReinterpretCastOp × ReinterpretCastOp :=
  let targetOffset := (accumulateTargetOffset op).val
  let rowSize : Int := op.sizes.getD 0 0
  let colSize : Int := op.sizes.getD 1 0
  let strideRow := (op.strides.getD 0 (.static 0)).val
  let strideCol := (op.strides.getD 1 (.static 0)).val
  let modRow := (op.shape.getD 0 (.static 0)).val
  let wrappedAroundOff := Int.tmod targetOffset strideRow
  let clampedOff := modRow + wrappedAroundOff
  let d1 := Int.tdiv (clampedOff - targetOffset) strideRow
  let cast1 : ReinterpretCastOp :=
    { base := op.base
      offset := .dyn targetOffset
      sizes := [.dyn d1, .dyn colSize]
      strides := [.dyn strideRow, .dyn strideCol] }
  let d2 := rowSize - d1
  let cast2 : ReinterpretCastOp :=
    { base := op.base
      offset := .dyn wrappedAroundOff
      sizes := [.dyn d2, .dyn colSize]
      strides := [.dyn strideRow, .dyn strideCol] }
  (cast1, cast2)

/-- Model of `MakeTensorPtrConverter::rewriteSplitPtr`: a dynamic leading
static-shape entry selects the stacked variant, otherwise the side-by-side
variant; the two casts are bundled and tagged with the wrap marker. -/
def rewriteSplitPtr (op : MakeTensorPtrOp) : SplitResult :=
  if (getStaticShape op).getD 0 0 = kDynamic then
    let c := createStackedCastOps op
    ⟨WrapType.stacked, c.1, c.2⟩
  else
    let c := createSideBySideCastOps op
    ⟨WrapType.sideBySide, c.1, c.2⟩

/-- Model of `MakeTensorPtrConverter::rewritePtr` (shared by the structured
and block paths, which differ only in how the element type is recovered): one
reinterpret-cast with the accumulated offset, the op sizes and the adjusted
strides. -/
def rewritePtr (op : MakeTensorPtrOp) : ReinterpretCastOp :=
  { base := op.base
    offset := accumulateTargetOffset op
    sizes := op.sizes.map OFR.static
    strides := getMixedStridesForMemref op }

/-- Model of `llvm::is_sorted(order, std::greater<>())`: adjacent-pairwise
non-increasing. -/
def isSortedGreater : List Nat → Bool
  | [] => true
  | [_] => true
  | a :: b :: rest => decide (b ≤ a) && isSortedGreater (b :: rest)

/-- Structural reformulation of the reverse-loop-reverse stride adjustment:
per dimension, a (static size 1, folded stride 0) pair becomes the product of
the sizes of all later (inner) dimensions.  Proved equal to
`getMixedStridesForMemref` below. -/
def stridesSpec : List Int → List OFR → List OFR
  | size :: sizes, stride :: strides =>
      (if size = 1 ∧ getIntAttr stride = some 0
        then OFR.static sizes.prod
        else stride) :: stridesSpec sizes strides
  | _, _ => []

/-- Strict decrease of the `order` permutation, adjacent-pairwise (Boolean
recursion; `strictlyDecreasing_iff_chain` relates it to `List.Chain'`). -/
def strictlyDecreasingB : List Nat → Bool
  | [] => true
  | [_] => true
  | a :: b :: rest => decide (b < a) && strictlyDecreasingB (b :: rest)

/-- Strict decrease of the `order` permutation. -/
def strictlyDecreasing (l : List Nat) : Prop :=
  strictlyDecreasingB l = true

instance (l : List Nat) : Decidable (strictlyDecreasing l) :=
  inferInstanceAs (Decidable (strictlyDecreasingB l = true))

/-- Model of `MakeTensorPtrConverter::matchAndRewrite`: a non-decreasing
order emits a diagnostic and fails; otherwise the block, structured and split
kinds are rewritten, and any other kind fails silently. -/
def matchAndRewrite (op : MakeTensorPtrOp) : ConvResult :=
  if isSortedGreater op.order then
    match op.kind with
    | .block => ⟨false, some (.single (rewritePtr op))⟩
    | .structured => ⟨false, some (.single (rewritePtr op))⟩
    | .split => ⟨false, some (.split (rewriteSplitPtr op))⟩
    | .other => ⟨false, none⟩
  else ⟨true, none⟩

end MakeTensorPtrConverter

/-- Modelled from the spec: the driver feeds each matching op through the
pattern; rules fail independently of each other (the surrounding pass driver
is not part of the reviewed source file). -/
def runPass (ops : List MakeTensorPtrOp) : List ConvResult :=
  ops.map MakeTensorPtrConverter.matchAndRewrite

/-- Modelled from the spec: the overall rewrite is considered failed when any
single op failed to convert. -/
def passSucceeded (rs : List ConvResult) : Bool :=
  rs.all fun r => r.result.isSome

/-- Default op used with `List.getD`. -/
def opDefault : MakeTensorPtrOp := ⟨0, [], [], [], [], [], PtrKind.other⟩

/-- Whether a rank-n index lies in the region with offsets 0 and the given
sizes: the set of elements touched by a subview taken by `getSubview`
(offsets 0, the given dims as sizes, strides 1) and copied by
`memref.copy`. -/
def inRegionB (dims idx : List Int) : Bool :=
  idx.length == dims.length &&
  (List.range dims.length).all fun i =>
    decide (0 ≤ idx.getD i 0) && decide (idx.getD i 0 < dims.getD i 0)

namespace LoadConverter

/-- Or-accumulation loop of `LoadConverter::rewriteMaskedLoad`: for each
dimension, compare `dims[i] slt shape[i]` and or-accumulate, starting from
`false`. -/
def orAccum (shape maskDims : List Int) : Bool :=
  (List.range shape.length).foldl
    (fun accBase i => accBase || decide (maskDims.getD i 0 < shape.getD i 0))
    false

/-- Result of lowering a masked load through a non-split pointer: the number
of `memref.alloc` ops emitted, whether the conditional `linalg.fill` on the
or-accumulated comparison actually runs, and the contents of the destination
buffer handed to `bufferization.to_tensor`. -/
structure MaskedLoadLowering (α : Type) where
  allocs : Nat
  fillExecuted : Bool
  final : List Int → α

/-- Model of `LoadConverter::rewriteMaskedLoad` on a non-split pointer:
allocate the destination; when an `other` value is present, fill the whole
destination with it under the condition that some mask dim is strictly
smaller than the full shape; then copy the `maskDims`-sized zero-offset
subview of the source over the matching subview of the destination.  `src`
gives the source view's elements and `uninit` the contents of the fresh
allocation. -/
def rewriteMaskedLoad {α : Type} (shape maskDims : List Int) (other : Option α)
    (src uninit : List Int → α) : MaskedLoadLowering α :=
  let alloc := uninit
  let afterFill :=
    match other with
    | some fill => if orAccum shape maskDims then fun _ => fill else alloc
    | none => alloc
  { allocs := 1
    fillExecuted :=
      match other with
      | some _ => orAccum shape maskDims
      | none => false
    final := fun idx => if inRegionB maskDims idx then src idx else afterFill idx }

/-- A `memref.subview` of the load destination, as taken by the split-copy
helpers: offsets, sizes and strides. -/
structure SubviewSpec where
  offsets : List Int
  sizes : List Int
  strides : List Int
deriving DecidableEq

/-- Model of `LoadConverter::createSideBySideCopies`: block 1 (with dims read
off by `memref.dim`) is copied to the destination subview at offsets
`[0, 0]`, block 2 to the subview at offsets `[0, block1Col]`; both subviews
have the block's dims as sizes and strides 1. -/
def createSideBySideCopies (block1 block2 : Int × Int) :
    SubviewSpec × SubviewSpec :=
  (⟨[0, 0], [block1.1, block1.2], [1, 1]⟩,
   ⟨[0, block1.2], [block2.1, block2.2], [1, 1]⟩)

/-- Model of `LoadConverter::createStackedCopies`: block 1 is copied to the
destination subview at offsets `[0, 0]`, block 2 to the subview at offsets
`[block1Row, 0]`. -/
def createStackedCopies (block1 block2 : Int × Int) :
    SubviewSpec × SubviewSpec :=
  (⟨[0, 0], [block1.1, block1.2], [1, 1]⟩,
   ⟨[block1.1, 0], [block2.1, block2.2], [1, 1]⟩)

/-- Model of `LoadConverter::getSideBySideSubviews` (masked split load,
side-by-side): chunk 1 keeps the full requested row extent and
`min (block1Col, requestedCol)` columns; chunk 2 keeps the full row extent
and the remaining columns.  `min` and the subtraction are the value
semantics of the spec's fold-or-emit min/subtract primitives (`minOFRs` /
`subOFRs`, not part of the reviewed source file). -/
def getSideBySideSubviews (dims block1 : Int × Int) : (Int × Int) × (Int × Int) :=
  let subviewCol1 := min block1.2 dims.2
  let subviewCol2 := dims.2 - subviewCol1
  ((dims.1, subviewCol1), (dims.1, subviewCol2))

/-- Model of `LoadConverter::getStackedSubviews` (masked split load,
stacked): chunk 1 gets `min (block1Row, requestedRow)` rows and the full
requested column extent; chunk 2 the remaining rows. -/
def getStackedSubviews (dims block1 : Int × Int) : (Int × Int) × (Int × Int) :=
  let subviewRow1 := min block1.1 dims.1
  let subviewRow2 := dims.1 - subviewRow1
  ((subviewRow1, dims.2), (subviewRow2, dims.2))

/-- Split branch of `LoadConverter::rewriteStructuredLoad` (unmasked): the
wrap marker selects side-by-side or stacked copies of the full blocks. -/
def splitCopyUnmasked (wrap : WrapType) (block1 block2 : Int × Int) :
    SubviewSpec × SubviewSpec :=
  match wrap with
  | .sideBySide => createSideBySideCopies block1 block2
  | .stacked => createStackedCopies block1 block2

/-- Split branch of `LoadConverter::rewriteMaskedLoad`: the wrap marker
selects the per-chunk mask subviews, whose dims then drive the same copy
placement helpers. -/
def splitCopyMasked (wrap : WrapType) (dims block1 block2 : Int × Int) :
    SubviewSpec × SubviewSpec :=
  match wrap with
  | .sideBySide =>
      let s := getSideBySideSubviews dims block1
      createSideBySideCopies s.1 s.2
  | .stacked =>
      let s := getStackedSubviews dims block1
      createStackedCopies s.1 s.2

end LoadConverter

namespace StoreConverter

/-- The source operand of the emitted
`bufferization.materialize_in_destination`: the whole stored value, or the
`tensor.extract_slice` taken at the given offsets/sizes/strides. -/
inductive StoreSrc where
  | fullValue
  | slice (offsets sizes strides : List Int)
deriving DecidableEq

/-- The destination operand: the converted pointer view itself, or the
`memref.subview` taken at the given offsets/sizes/strides. -/
inductive StoreDst where
  | fullView
  | subview (offsets sizes strides : List Int)
deriving DecidableEq

/-- What `StoreConverter::matchAndRewrite` emits: how many `memref.alloc`
ops (the store path allocates no buffer), the materialization source and
destination, and the `writable` unit attribute. -/
structure StoreLowering where
  allocs : Nat
  src : StoreSrc
  dst : StoreDst
  writable : Bool
deriving DecidableEq

/-- Model of `StoreConverter::matchAndRewrite`: a masked store extracts the
zero-offset slice of the value sized by the mask dims and materializes it
into the matching zero-offset subview of the destination; an unmasked store
materializes the whole value into the whole view.  Both set `writable`. -/
def matchAndRewrite (rank : Nat) (mask : Option (List Int)) : StoreLowering :=
  match mask with
  | some mixedDims =>
      { allocs := 0
        src := .slice (List.replicate rank 0) mixedDims (List.replicate rank 1)
        dst := .subview (List.replicate rank 0) mixedDims (List.replicate rank 1)
        writable := true }
  | none =>
      { allocs := 0
        src := .fullValue
        dst := .fullView
        writable := true }

/-- Element-wise effect of the emitted
`bufferization.materialize_in_destination` on the destination view: a full
materialization replaces every element; a slice-into-subview materialization
replaces exactly the elements of the zero-offset region sized by the subview
sizes. -/
def applyStore {α : Type} (l : StoreLowering) (value dstInit : List Int → α) :
    List Int → α :=
  match l.dst with
  | .fullView => value
  | .subview _ sizes _ =>
      fun idx => if inRegionB sizes idx then value idx else dstInit idx

end StoreConverter

/-- Correctness bundle for a side-by-side split: the two chunks' column
counts sum to the requested column count, both chunks keep the requested row
count, and — with `x` the start column within one period — the logical
wrapped columns `(x + j) mod N` for `j < colSize` are exactly the disjoint
union of chunk 1's column interval (starting at `x`) and chunk 2's column
interval (starting at the period base). -/
def sideBySideCorrect (op : MakeTensorPtrOp) (rowSize colSize : Int) : Prop :=
  let t := (MakeTensorPtrConverter.accumulateTargetOffset op).val
  let N := (op.shape.getD 1 (.static 0)).val
  let x := t % N
  let c := MakeTensorPtrConverter.createSideBySideCastOps op
  let w1 := (c.1.sizes.getD 1 (.static 0)).val
  let w2 := (c.2.sizes.getD 1 (.static 0)).val
  w1 + w2 = colSize
    ∧ (c.1.sizes.getD 0 (.static 0)).val = rowSize
    ∧ (c.2.sizes.getD 0 (.static 0)).val = rowSize
    ∧ ((fun j => (x + j) % N) '' Set.Ico 0 colSize)
        = Set.Ico x (x + w1) ∪ Set.Ico 0 w2
    ∧ Disjoint (Set.Ico x (x + w1)) (Set.Ico 0 w2)

/-- Correctness bundle for a stacked split with `R` rows (the linearized row
bound divided by the row stride): the two chunks' row counts sum to the
requested row count, both keep the requested column count, and — with `q` the
start row — the logical wrapped rows `(q + i) mod R` for `i < rowSize` are
exactly the disjoint union of chunk 1's row interval (starting at `q`) and
chunk 2's row interval (starting at row 0). -/
def stackedCorrect (op : MakeTensorPtrOp) (rowSize colSize R : Int) : Prop :=
  let t := (MakeTensorPtrConverter.accumulateTargetOffset op).val
  let s := (op.strides.getD 0 (.static 0)).val
  let q := t / s
  let c := MakeTensorPtrConverter.createStackedCastOps op
  let r1 := (c.1.sizes.getD 0 (.static 0)).val
  let r2 := (c.2.sizes.getD 0 (.static 0)).val
  r1 + r2 = rowSize
    ∧ (c.1.sizes.getD 1 (.static 0)).val = colSize
    ∧ (c.2.sizes.getD 1 (.static 0)).val = colSize
    ∧ ((fun i => (q + i) % R) '' Set.Ico 0 rowSize)
        = Set.Ico q (q + r1) ∪ Set.Ico 0 r2
    ∧ Disjoint (Set.Ico q (q + r1)) (Set.Ico 0 r2)

/-- Side-by-side example descriptor: offsets summing to 7, wrap modulus 10,
requested sizes 2×6, strides [10, 1]. -/
def opSideBySideExample : MakeTensorPtrOp :=
  ⟨0, [.static 3, .static 4], [.static 10, .static 1], [2, 6],
    [.static 0, .static 10], [1, 0], .split⟩

/-- Stacked example descriptor: offset 25, row stride 10, linearized row
bound 40 (4 rows), requested sizes 4×3. -/
def opStackedExample : MakeTensorPtrOp :=
  ⟨0, [.static 25], [.static 10, .static 1], [4, 3],
    [.dyn 40, .static 0], [1, 0], .split⟩

/-- Stacked descriptor whose access does not reach the row bound: offset 0,
row stride 10, linearized row bound 100 (10 rows), requested sizes 2×5. -/
def opStackedNoWrap : MakeTensorPtrOp :=
  ⟨0, [.static 0, .static 0], [.static 10, .static 1], [2, 5],
    [.dyn 100, .static 0], [1, 0], .split⟩

/-- Structured descriptor with one dimension of size 4 and folded stride 0. -/
def opZeroStrideDim : MakeTensorPtrOp :=
  ⟨0, [.static 0], [.static 0], [4], [.static 0], [0], .structured⟩

/-- Structured descriptor with sizes [4, 1, 8] and strides [_, 0, 1]: the
middle dimension has static size 1 and folded stride 0. -/
def opSizeOneZeroStride : MakeTensorPtrOp :=
  ⟨0, [.static 0, .static 0, .static 0], [.dyn 5, .static 0, .static 1],
    [4, 1, 8], [.static 0, .static 0, .static 0], [2, 1, 0], .structured⟩

/-- Structured descriptor with offsets [3, 0] and strides [10, 1]. -/
def opOffsets30 : MakeTensorPtrOp :=
  ⟨0, [.static 3, .static 0], [.static 10, .static 1], [2, 2],
    [.static 0, .static 0], [1, 0], .structured⟩

/-- Descriptor whose order [0, 1] is not strictly decreasing. -/
def opNonDecreasingOrder : MakeTensorPtrOp :=
  ⟨0, [], [], [], [], [0, 1], .structured⟩

/-- Well-formed 1-D structured descriptor. -/
def opUnitOrder : MakeTensorPtrOp :=
  ⟨0, [.static 0], [.static 1], [4], [.static 0], [0], .structured⟩

/-- Descriptor with strictly decreasing order whose kind is none of block,
structured or split. -/
def opUnknownKind : MakeTensorPtrOp :=
  ⟨0, [], [], [], [], [1, 0], .other⟩

/-- Concrete source-view contents used in witnesses. -/
def srcExample : List Int → Int :=
  fun idx => 100 * idx.getD 0 0 + idx.getD 1 0

/-- Concrete uninitialized-buffer contents used in witnesses. -/
def uninitExample : List Int → Int := fun _ => -7

/-! ### Helper lemmas -/

lemma addOFRs_val (a b : OFR) : (addOFRs a b).val = a.val + b.val := by
  cases a <;> cases b <;> simp [addOFRs, OFR.val]

lemma foldl_addOFRs_val : ∀ (l : List OFR) (a : OFR),
    (l.foldl addOFRs a).val = a.val + (l.map OFR.val).sum := by
  intro l
  induction l with
  | nil => intro a; simp
  | cons o t ih =>
      intro a
      rw [List.foldl_cons, ih, addOFRs_val, List.map_cons, List.sum_cons]
      ring

lemma foldl_addOFRs_isStatic : ∀ (l : List OFR) (a : OFR), a.isStatic = true →
    (∀ o ∈ l, o.isStatic = true) → (l.foldl addOFRs a).isStatic = true := by
  intro l
  induction l with
  | nil => intro a ha _; simpa using ha
  | cons o t ih =>
      intro a ha hl
      rw [List.foldl_cons]
      apply ih
      · have ho := hl o (by simp)
        cases a with
        | static va =>
            cases o with
            | static vo => simp [addOFRs, OFR.isStatic]
            | dyn vo => simp [OFR.isStatic] at ho
        | dyn va => simp [OFR.isStatic] at ha
      · intro y hy; exact hl y (by simp [hy])

namespace MakeTensorPtrConverter

lemma accumulateTargetOffset_val (op : MakeTensorPtrOp) :
    (accumulateTargetOffset op).val = (op.offsets.map OFR.val).sum := by
  unfold accumulateTargetOffset
  rw [foldl_addOFRs_val]
  simp [OFR.val]

lemma accumulateTargetOffset_isStatic (op : MakeTensorPtrOp)
    (h : ∀ o ∈ op.offsets, o.isStatic = true) :
    (accumulateTargetOffset op).isStatic = true :=
  foldl_addOFRs_isStatic _ _ rfl h

lemma stridesLoop_append (l : List (Int × OFR)) (p : Int × OFR) :
    ∀ accumulate, stridesLoop (l ++ [p]) accumulate =
      stridesLoop l accumulate ++
        [if p.1 = 1 ∧ getIntAttr p.2 = some 0
          then OFR.static (accumulate * (l.map Prod.fst).prod)
          else p.2] := by
  obtain ⟨ps, pst⟩ := p
  induction l with
  | nil => intro a; simp [stridesLoop]
  | cons q t ih =>
      intro a
      obtain ⟨qs, qst⟩ := q
      simp [stridesLoop, ih, List.prod_cons, mul_assoc]

lemma getMixedStrides_eq_spec : ∀ (sizes : List Int) (strides : List OFR),
    strides.length = sizes.length →
    (stridesLoop ((sizes.zip strides).reverse) 1).reverse = stridesSpec sizes strides := by
  intro sizes
  induction sizes with
  | nil =>
      intro strides h
      cases strides with
      | nil => simp [stridesLoop, stridesSpec]
      | cons st sts => simp at h
  | cons s ss ih =>
      intro strides h
      cases strides with
      | nil => simp at h
      | cons st sts =>
          have hlen : sts.length = ss.length := by simpa using h
          rw [List.zip_cons_cons, List.reverse_cons, stridesLoop_append,
            List.reverse_append]
          rw [ih sts hlen]
          have hp : ((ss.zip sts).map Prod.fst).reverse.prod = ss.prod := by
            rw [List.prod_reverse, List.map_fst_zip ss sts (by omega)]
          simp [stridesSpec, hp]

lemma stridesSpec_getD : ∀ (sizes : List Int) (strides : List OFR) (i : Nat),
    i < sizes.length → strides.length = sizes.length →
    (stridesSpec sizes strides).getD i (.static 0) =
      if sizes.getD i 0 = 1 ∧ getIntAttr (strides.getD i (.static 0)) = some 0
      then OFR.static ((sizes.drop (i + 1)).prod)
      else strides.getD i (.static 0) := by
  intro sizes
  induction sizes with
  | nil => intro _ i hi _; simp at hi
  | cons s ss ih =>
      intro strides i hi h
      cases strides with
      | nil => simp at h
      | cons st sts =>
          cases i with
          | zero => simp [stridesSpec]
          | succ i =>
              have hi2 : i < ss.length := by simpa using hi
              have h2 : sts.length = ss.length := by simpa using h
              simp only [stridesSpec, List.getD_cons_succ, List.drop_succ_cons]
              exact ih sts i hi2 h2

lemma getMixedStridesForMemref_getD (op : MakeTensorPtrOp)
    (h : op.strides.length = op.sizes.length) (i : Nat) (hi : i < op.sizes.length) :
    (getMixedStridesForMemref op).getD i (.static 0) =
      if op.sizes.getD i 0 = 1 ∧ getIntAttr (op.strides.getD i (.static 0)) = some 0
      then OFR.static ((op.sizes.drop (i + 1)).prod)
      else op.strides.getD i (.static 0) := by
  unfold getMixedStridesForMemref
  rw [getMixedStrides_eq_spec op.sizes op.strides h]
  exact stridesSpec_getD op.sizes op.strides i hi h

lemma strictlyDecreasing_iff_chain : ∀ l : List Nat,
    strictlyDecreasing l ↔ List.Chain' (fun a b => b < a) l := by
  intro l
  induction l with
  | nil => simp [strictlyDecreasing, strictlyDecreasingB]
  | cons a t ih =>
      cases t with
      | nil => simp [strictlyDecreasing, strictlyDecreasingB]
      | cons b t2 =>
          rw [List.chain'_cons, ← ih]
          simp [strictlyDecreasing, strictlyDecreasingB, Bool.and_eq_true,
            and_comm]

lemma isSortedGreater_of_chain : ∀ l : List Nat, strictlyDecreasing l →
    isSortedGreater l = true := by
  intro l
  induction l with
  | nil => intro _; rfl
  | cons a t ih =>
      cases t with
      | nil => intro _; rfl
      | cons b t2 =>
          intro h
          rw [strictlyDecreasing, strictlyDecreasingB, Bool.and_eq_true,
            decide_eq_true_eq] at h
          simp only [isSortedGreater, Bool.and_eq_true, decide_eq_true_eq]
          exact ⟨Nat.le_of_lt h.1, ih h.2⟩

lemma chain_of_isSortedGreater : ∀ l : List Nat, l.Nodup →
    isSortedGreater l = true → strictlyDecreasing l := by
  intro l
  induction l with
  | nil => intro _ _; rfl
  | cons a t ih =>
      cases t with
      | nil => intro _ _; rfl
      | cons b t2 =>
          intro hnd hs
          simp only [isSortedGreater, Bool.and_eq_true, decide_eq_true_eq] at hs
          rw [strictlyDecreasing, strictlyDecreasingB, Bool.and_eq_true,
            decide_eq_true_eq]
          have hmem := (List.nodup_cons.mp hnd).1
          have hne : a ≠ b := by
            intro hab
            exact hmem (by simp [hab])
          exact ⟨lt_of_le_of_ne hs.1 fun hba => hne hba.symm,
            ih (List.nodup_cons.mp hnd).2 hs.2⟩

lemma isSortedGreater_eq_false (l : List Nat) (hnd : l.Nodup)
    (h : ¬ strictlyDecreasing l) : isSortedGreater l = false := by
  cases hs : isSortedGreater l
  · rfl
  · exact absurd (chain_of_isSortedGreater l hnd hs) h

end MakeTensorPtrConverter

lemma foldl_or_eq (f : Nat → Bool) : ∀ (l : List Nat) (b : Bool),
    l.foldl (fun acc i => acc || f i) b = (b || l.any f) := by
  intro l
  induction l with
  | nil => intro b; simp
  | cons a t ih => intro b; simp [List.foldl_cons, ih, Bool.or_assoc]

lemma orAccum_eq_true_iff (shape maskDims : List Int) :
    LoadConverter.orAccum shape maskDims = true ↔
      ∃ i, i < shape.length ∧ maskDims.getD i 0 < shape.getD i 0 := by
  unfold LoadConverter.orAccum
  rw [foldl_or_eq]
  simp [List.any_eq_true, List.mem_range]

lemma inRegionB_eq_true_iff (dims idx : List Int) :
    inRegionB dims idx = true ↔
      idx.length = dims.length ∧
        ∀ i, i < dims.length → 0 ≤ idx.getD i 0 ∧ idx.getD i 0 < dims.getD i 0 := by
  simp [inRegionB, List.all_eq_true, List.mem_range]

/-- Coverage of a wrapped one-axis access: the logical positions
`(x + j) mod N` for `j < size` are exactly the split pair of intervals
`[x, x + d1)` and `[0, d2)`, and those two intervals are disjoint. -/
lemma wrap_cover {N x size d1 d2 : Int} (hN : 0 < N) (hx0 : 0 ≤ x) (hxN : x < N)
    (hsz0 : 0 ≤ size) (hszN : size ≤ N)
    (hd1 : d1 = min (x + size) N - x) (hd2 : d2 = size - d1) :
    ((fun j => (x + j) % N) '' Set.Ico 0 size) = Set.Ico x (x + d1) ∪ Set.Ico 0 d2
      ∧ Disjoint (Set.Ico x (x + d1)) (Set.Ico 0 d2) := by
  have hmod2 : ∀ j : Int, N ≤ x + j → x + j < 2 * N → (x + j) % N = x + j - N := by
    intro j h1 h2
    calc (x + j) % N = ((x + j - N) + N * 1) % N := by
          rw [show (x + j - N) + N * 1 = x + j by ring]
      _ = (x + j - N) % N := Int.add_mul_emod_self_left ..
      _ = x + j - N := Int.emod_eq_of_lt (by omega) (by omega)
  constructor
  · ext c
    simp only [Set.mem_image, Set.mem_Ico, Set.mem_union]
    constructor
    · rintro ⟨j, ⟨hj0, hjs⟩, rfl⟩
      rcases lt_or_le (x + j) N with hB | hB
      · left
        rw [Int.emod_eq_of_lt (by omega) hB]
        have h1 : x + j < x + size := by omega
        have h2 := lt_min h1 hB
        omega
      · right
        rw [hmod2 j hB (by omega)]
        have hminN : min (x + size) N = N := min_eq_right (by omega)
        rw [hd2, hd1, hminN]
        omega
    · intro hc
      rcases hc with ⟨h1, h2⟩ | ⟨h1, h2⟩
      · refine ⟨c - x, ⟨by omega, ?_⟩, ?_⟩
        · have hds : d1 ≤ size := by
            have := min_le_left (x + size) N
            omega
          omega
        · rw [show x + (c - x) = c by ring]
          have hcN : c < N := by
            have := min_le_right (x + size) N
            omega
          exact Int.emod_eq_of_lt (by omega) hcN
      · have hwrap : min (x + size) N = N := by
          rcases le_or_lt (x + size) N with hcase | hcase
          · exfalso
            rw [hd2, hd1, min_eq_left hcase] at h2
            omega
          · exact min_eq_right (by omega)
        have h2e : c < size - (N - x) := by rw [hd2, hd1, hwrap] at h2; omega
        refine ⟨c + N - x, ⟨by omega, by omega⟩, ?_⟩
        rw [show x + (c + N - x) = c + N * 1 by ring, Int.add_mul_emod_self_left]
        exact Int.emod_eq_of_lt (by omega) (by omega)
  · rw [Set.disjoint_left]
    intro c hc1 hc2
    simp only [Set.mem_Ico] at hc1 hc2
    rcases le_or_lt (x + size) N with hcase | hcase
    · rw [hd2, hd1, min_eq_left hcase] at hc2
      omega
    · rw [hd2, hd1, min_eq_right (by omega)] at hc2
      omega

lemma map_dyn_val (l : List Int) : (l.map OFR.dyn).map OFR.val = l := by
  induction l with
  | nil => rfl
  | cons a t ih => simp [OFR.val, ih]

/-! ### Claim theorems -/

/-- Claim C7: for every load whose pointer operand is a split pair, the Load
Lowerer copies chunk 1 into the destination sub-region starting at offset 0
and chunk 2 into the adjoining sub-region offset by chunk 1's extent along
the split axis (trailing axis for SideBySide, leading axis for Stacked); in
the masked case the per-chunk copied extents along the split axis are
`min (chunk1_extent, requested_extent)` for chunk 1 and the remainder for
chunk 2, with the full requested extent along the other axis. -/
theorem claim_C7 (dims block1 block2 : Int × Int) :
    ((LoadConverter.splitCopyUnmasked .sideBySide block1 block2).1.offsets = [0, 0]
      ∧ (LoadConverter.splitCopyUnmasked .sideBySide block1 block2).1.sizes
          = [block1.1, block1.2]
      ∧ (LoadConverter.splitCopyUnmasked .sideBySide block1 block2).2.offsets
          = [0, block1.2]
      ∧ (LoadConverter.splitCopyUnmasked .sideBySide block1 block2).2.sizes
          = [block2.1, block2.2])
    ∧ ((LoadConverter.splitCopyUnmasked .stacked block1 block2).1.offsets = [0, 0]
      ∧ (LoadConverter.splitCopyUnmasked .stacked block1 block2).1.sizes
          = [block1.1, block1.2]
      ∧ (LoadConverter.splitCopyUnmasked .stacked block1 block2).2.offsets
          = [block1.1, 0]
      ∧ (LoadConverter.splitCopyUnmasked .stacked block1 block2).2.sizes
          = [block2.1, block2.2])
    ∧ ((LoadConverter.splitCopyMasked .sideBySide dims block1 block2).1.offsets = [0, 0]
      ∧ (LoadConverter.splitCopyMasked .sideBySide dims block1 block2).1.sizes
          = [dims.1, min block1.2 dims.2]
      ∧ (LoadConverter.splitCopyMasked .sideBySide dims block1 block2).2.offsets
          = [0, min block1.2 dims.2]
      ∧ (LoadConverter.splitCopyMasked .sideBySide dims block1 block2).2.sizes
          = [dims.1, dims.2 - min block1.2 dims.2])
    ∧ ((LoadConverter.splitCopyMasked .stacked dims block1 block2).1.offsets = [0, 0]
      ∧ (LoadConverter.splitCopyMasked .stacked dims block1 block2).1.sizes
          = [min block1.1 dims.1, dims.2]
      ∧ (LoadConverter.splitCopyMasked .stacked dims block1 block2).2.offsets
          = [min block1.1 dims.1, 0]
      ∧ (LoadConverter.splitCopyMasked .stacked dims block1 block2).2.sizes
          = [dims.1 - min block1.1 dims.1, dims.2]) :=
  ⟨⟨rfl, rfl, rfl, rfl⟩, ⟨rfl, rfl, rfl, rfl⟩, ⟨rfl, rfl, rfl, rfl⟩,
    ⟨rfl, rfl, rfl, rfl⟩⟩

/-- Claim C8: an unmasked store materializes the entire source value directly
into the destination view with no buffer allocation and marks it writable; a
masked store extracts the zero-offset sub-slice of the value sized by the
mask's valid extents, takes the matching zero-offset sub-view of the
destination, materializes the slice into it, and marks it writable. -/
theorem claim_C8 {α : Type} (rank : Nat) (dims : List Int)
    (value dstInit : List Int → α) :
    ((StoreConverter.matchAndRewrite rank none).allocs = 0
      ∧ (StoreConverter.matchAndRewrite rank none).src = .fullValue
      ∧ (StoreConverter.matchAndRewrite rank none).dst = .fullView
      ∧ (StoreConverter.matchAndRewrite rank none).writable = true
      ∧ StoreConverter.applyStore (StoreConverter.matchAndRewrite rank none)
          value dstInit = value)
    ∧ ((StoreConverter.matchAndRewrite rank (some dims)).allocs = 0
      ∧ (StoreConverter.matchAndRewrite rank (some dims)).src
          = .slice (List.replicate rank 0) dims (List.replicate rank 1)
      ∧ (StoreConverter.matchAndRewrite rank (some dims)).dst
          = .subview (List.replicate rank 0) dims (List.replicate rank 1)
      ∧ (StoreConverter.matchAndRewrite rank (some dims)).writable = true
      ∧ ∀ idx : List Int,
          (inRegionB dims idx = true →
            StoreConverter.applyStore (StoreConverter.matchAndRewrite rank (some dims))
              value dstInit idx = value idx)
          ∧ (inRegionB dims idx = false →
            StoreConverter.applyStore (StoreConverter.matchAndRewrite rank (some dims))
              value dstInit idx = dstInit idx)) := by
  refine ⟨⟨rfl, rfl, rfl, rfl, rfl⟩, rfl, rfl, rfl, rfl, ?_⟩
  intro idx
  constructor <;> intro h <;>
    simp [StoreConverter.applyStore, StoreConverter.matchAndRewrite, h]

/-- Claim C8 witness: an unmasked store of a value materializes every element
unconditionally with no allocation; a masked store with extents [1, 1] writes
[0, 0] from the value and leaves [1, 1] untouched. -/
theorem claim_C8_witness :
    StoreConverter.applyStore (StoreConverter.matchAndRewrite 2 none)
        srcExample uninitExample = srcExample
    ∧ StoreConverter.applyStore (StoreConverter.matchAndRewrite 2 (some [1, 1]))
        srcExample uninitExample [0, 0] = srcExample [0, 0]
    ∧ StoreConverter.applyStore (StoreConverter.matchAndRewrite 2 (some [1, 1]))
        srcExample uninitExample [1, 1] = uninitExample [1, 1] := by
  have h := claim_C8 2 [1, 1] srcExample uninitExample
  exact ⟨h.1.2.2.2.2, (h.2.2.2.2.2 [0, 0]).1 (by decide),
    (h.2.2.2.2.2 [1, 1]).2 (by decide)⟩

/-- Claim C9: a structured-pointer descriptor op whose order permutation is
not strictly decreasing gets a located diagnostic, its conversion fails
without the op being rewritten, and the overall rewrite reports failure while
every other op converts independently. -/
theorem claim_C9 (ops : List MakeTensorPtrOp) (i : Nat) (hi : i < ops.length)
    (hnd : (ops.getD i opDefault).order.Nodup)
    (hns : ¬ MakeTensorPtrConverter.strictlyDecreasing (ops.getD i opDefault).order) :
    MakeTensorPtrConverter.matchAndRewrite (ops.getD i opDefault) = ⟨true, none⟩
    ∧ passSucceeded (runPass ops) = false
    ∧ ∀ j, j < ops.length → (runPass ops).getD j ⟨true, none⟩
        = MakeTensorPtrConverter.matchAndRewrite (ops.getD j opDefault) := by
  have hfalse := MakeTensorPtrConverter.isSortedGreater_eq_false _ hnd hns
  have hconv : MakeTensorPtrConverter.matchAndRewrite (ops.getD i opDefault)
      = ⟨true, none⟩ := by
    unfold MakeTensorPtrConverter.matchAndRewrite
    rw [hfalse]
    simp
  refine ⟨hconv, ?_, ?_⟩
  · cases hOK : passSucceeded (runPass ops)
    · rfl
    · exfalso
      have hall := List.all_eq_true.mp hOK
      have hi2 : i < (runPass ops).length := by simpa [runPass] using hi
      have hv : (runPass ops).getD i ⟨true, none⟩
          = MakeTensorPtrConverter.matchAndRewrite (ops.getD i opDefault) := by
        rw [List.getD_eq_getElem _ _ hi2, List.getD_eq_getElem _ _ hi]
        simp [runPass]
      have hmem : MakeTensorPtrConverter.matchAndRewrite (ops.getD i opDefault)
          ∈ runPass ops := by
        rw [← hv, List.getD_eq_getElem _ _ hi2]
        exact List.getElem_mem hi2
      have := hall _ hmem
      rw [hconv] at this
      simp at this
  · intro j hj
    have hj2 : j < (runPass ops).length := by simpa [runPass] using hj
    rw [List.getD_eq_getElem _ _ hj2, List.getD_eq_getElem _ _ hj]
    simp [runPass]

/-- Claim C9 witness: a two-op pass where op 0 has order [0, 1]: op 0 fails
with a diagnostic and the pass reports failure. -/
theorem claim_C9_witness :
    MakeTensorPtrConverter.matchAndRewrite opNonDecreasingOrder = ⟨true, none⟩
    ∧ passSucceeded (runPass [opNonDecreasingOrder, opUnitOrder]) = false := by
  have h := claim_C9 [opNonDecreasingOrder, opUnitOrder] 0 (by decide)
    (by decide) (by decide)
  exact ⟨h.1, h.2.1⟩

/-- Claim C10: a descriptor op with strictly decreasing order whose kind is
none of block, structured or split fails without any diagnostic and without
being rewritten. -/
theorem claim_C10 (op : MakeTensorPtrOp)
    (hord : MakeTensorPtrConverter.strictlyDecreasing op.order)
    (hkind : op.kind = PtrKind.other) :
    MakeTensorPtrConverter.matchAndRewrite op = ⟨false, none⟩ := by
  simp [MakeTensorPtrConverter.matchAndRewrite,
    MakeTensorPtrConverter.isSortedGreater_of_chain _ hord, hkind]

/-- Claim C10 witness: concrete op with order [1, 0] and unrecognized kind. -/
theorem claim_C10_witness :
    MakeTensorPtrConverter.matchAndRewrite opUnknownKind = ⟨false, none⟩ :=
  claim_C10 opUnknownKind (by decide) rfl

/-- Claim C2: for every non-split descriptor (structured or block kind) with
strictly decreasing order, the single produced view has scalar offset equal
to the sum of the per-dimension offsets (static whenever every offset is
static), shape equal to the requested sizes, and the descriptor's strides up
to the size-1/stride-0 adjustment. -/
theorem claim_C2 (op : MakeTensorPtrOp)
    (hkind : op.kind = PtrKind.structured ∨ op.kind = PtrKind.block)
    (hord : MakeTensorPtrConverter.strictlyDecreasing op.order)
    (hlen : op.strides.length = op.sizes.length) :
    MakeTensorPtrConverter.matchAndRewrite op
        = ⟨false, some (.single (MakeTensorPtrConverter.rewritePtr op))⟩
    ∧ (MakeTensorPtrConverter.rewritePtr op).offset.val
        = (op.offsets.map OFR.val).sum
    ∧ ((∀ o ∈ op.offsets, o.isStatic = true) →
        (MakeTensorPtrConverter.rewritePtr op).offset.isStatic = true)
    ∧ (MakeTensorPtrConverter.rewritePtr op).sizes = op.sizes.map OFR.static
    ∧ ∀ i, i < op.sizes.length →
        ¬(op.sizes.getD i 0 = 1
            ∧ getIntAttr (op.strides.getD i (.static 0)) = some 0) →
        (MakeTensorPtrConverter.rewritePtr op).strides.getD i (.static 0)
          = op.strides.getD i (.static 0) := by
  refine ⟨?_, MakeTensorPtrConverter.accumulateTargetOffset_val op,
    fun h => MakeTensorPtrConverter.accumulateTargetOffset_isStatic op h,
    rfl, ?_⟩
  · rcases hkind with hk | hk <;>
      simp [MakeTensorPtrConverter.matchAndRewrite,
        MakeTensorPtrConverter.isSortedGreater_of_chain _ hord, hk]
  · intro i hi hcond
    show (MakeTensorPtrConverter.getMixedStridesForMemref op).getD i (.static 0) = _
    rw [MakeTensorPtrConverter.getMixedStridesForMemref_getD op hlen i hi,
      if_neg hcond]

/-- Claim C2 witness: offsets [3, 0] with strides [10, 1] yield the static
offset 3. -/
theorem claim_C2_witness :
    (MakeTensorPtrConverter.rewritePtr opOffsets30).offset.val = 3
    ∧ (MakeTensorPtrConverter.rewritePtr opOffsets30).offset.isStatic = true := by
  have h := claim_C2 opOffsets30 (Or.inl rfl) (by decide) rfl
  exact ⟨h.2.1.trans (by decide), h.2.2.1 (by decide)⟩

/-- Claim C5 counterexample: the claim asserts the produced view never
carries a literal zero stride, but a descriptor with a dimension of static
size 4 and folded stride 0 (which the size-1 condition does not cover) keeps
its literal zero stride in the produced view. -/
theorem claim_C5_counterexample :
    (MakeTensorPtrConverter.rewritePtr opZeroStrideDim).strides.getD 0 (.static 1)
      = OFR.static 0 := by decide

/-- Claim C5 (amended): for every dimension with static size 1 and stride
folding to 0, the produced stride is the product of the sizes of all inner
(higher-index) dimensions, every other dimension's stride is unchanged, and —
provided every dimension whose stride folds to 0 has static size 1 and all
sizes are positive — the produced view carries no literal zero stride. -/
theorem claim_C5 (op : MakeTensorPtrOp)
    (hlen : op.strides.length = op.sizes.length) :
    (∀ i, i < op.sizes.length →
      (op.sizes.getD i 0 = 1
          ∧ getIntAttr (op.strides.getD i (.static 0)) = some 0 →
        (MakeTensorPtrConverter.rewritePtr op).strides.getD i (.static 0)
          = OFR.static ((op.sizes.drop (i + 1)).prod))
      ∧ (¬(op.sizes.getD i 0 = 1
            ∧ getIntAttr (op.strides.getD i (.static 0)) = some 0) →
        (MakeTensorPtrConverter.rewritePtr op).strides.getD i (.static 0)
          = op.strides.getD i (.static 0)))
    ∧ ((∀ i ∈ List.range op.sizes.length,
          getIntAttr (op.strides.getD i (.static 0)) = some 0 →
            op.sizes.getD i 0 = 1) →
        (∀ sz ∈ op.sizes, 0 < sz) →
        ∀ i, i < op.sizes.length →
          (MakeTensorPtrConverter.rewritePtr op).strides.getD i (.static 0)
            ≠ OFR.static 0) := by
  have hchar := MakeTensorPtrConverter.getMixedStridesForMemref_getD op hlen
  constructor
  · intro i hi
    constructor
    · intro hcond
      show (MakeTensorPtrConverter.getMixedStridesForMemref op).getD i (.static 0) = _
      rw [hchar i hi, if_pos hcond]
    · intro hcond
      show (MakeTensorPtrConverter.getMixedStridesForMemref op).getD i (.static 0) = _
      rw [hchar i hi, if_neg hcond]
  · intro hz hpos i hi
    show (MakeTensorPtrConverter.getMixedStridesForMemref op).getD i (.static 0) ≠ _
    rw [hchar i hi]
    by_cases hcond : op.sizes.getD i 0 = 1
        ∧ getIntAttr (op.strides.getD i (.static 0)) = some 0
    · rw [if_pos hcond]
      intro heq
      have hprod : ((op.sizes.drop (i + 1)).prod) = 0 := by
        injection heq
      have : 0 < (op.sizes.drop (i + 1)).prod :=
        List.prod_pos fun a ha => hpos a (List.mem_of_mem_drop ha)
      omega
    · rw [if_neg hcond]
      intro heq
      have h0 : getIntAttr (op.strides.getD i (.static 0)) = some 0 := by
        rw [heq]; rfl
      exact hcond ⟨hz i (List.mem_range.mpr hi) h0, h0⟩

/-- Claim C5 witness: sizes [4, 1, 8] with strides [_, 0, 1] yield 8 for the
middle stride, and no produced stride is the literal static 0. -/
theorem claim_C5_witness :
    (MakeTensorPtrConverter.rewritePtr opSizeOneZeroStride).strides.getD 1 (.static 0)
        = OFR.static 8
    ∧ (MakeTensorPtrConverter.rewritePtr opSizeOneZeroStride).strides.getD 0 (.static 0)
        ≠ OFR.static 0
    ∧ (MakeTensorPtrConverter.rewritePtr opSizeOneZeroStride).strides.getD 1 (.static 0)
        ≠ OFR.static 0
    ∧ (MakeTensorPtrConverter.rewritePtr opSizeOneZeroStride).strides.getD 2 (.static 0)
        ≠ OFR.static 0 := by
  have h := claim_C5 opSizeOneZeroStride rfl
  exact ⟨((h.1 1 (by decide)).1 (by decide)).trans (by decide),
    h.2 (by decide) (by decide) 0 (by decide),
    h.2 (by decide) (by decide) 1 (by decide),
    h.2 (by decide) (by decide) 2 (by decide)⟩

lemma OFR.val_dyn (v : Int) : (OFR.dyn v).val = v := rfl

lemma OFR.val_static (v : Int) : (OFR.static v).val = v := rfl

/-- Claim C3: for every side-by-side 2-D split descriptor with wrap modulus
N, accumulated offset t and sizes rowSize/colSize, the materializer computes
`x = t mod N` and `y = t - x`, makes chunk 1 a view of width
`d1 = min (x + colSize) N - x` starting at `t`, makes chunk 2 a view of
width `colSize - d1` starting at `y`, and keeps rowSize and the
per-dimension strides in both chunks. -/
theorem claim_C3 (op : MakeTensorPtrOp) (rowSize colSize t N : Int)
    (hsz : op.sizes = [rowSize, colSize])
    (htv : t = (MakeTensorPtrConverter.accumulateTargetOffset op).val)
    (hNv : N = (op.shape.getD 1 (.static 0)).val)
    (ht : 0 ≤ t) (hN : 0 < N) :
    (MakeTensorPtrConverter.createSideBySideCastOps op).1.offset.val = t
    ∧ (MakeTensorPtrConverter.createSideBySideCastOps op).1.sizes.map OFR.val
        = [rowSize, min (t % N + colSize) N - t % N]
    ∧ (MakeTensorPtrConverter.createSideBySideCastOps op).2.offset.val = t - t % N
    ∧ (MakeTensorPtrConverter.createSideBySideCastOps op).2.sizes.map OFR.val
        = [rowSize, colSize - (min (t % N + colSize) N - t % N)]
    ∧ (MakeTensorPtrConverter.createSideBySideCastOps op).1.strides.map OFR.val
        = op.strides.map OFR.val
    ∧ (MakeTensorPtrConverter.createSideBySideCastOps op).2.strides.map OFR.val
        = op.strides.map OFR.val := by
  subst htv hNv
  have htm : Int.tmod (MakeTensorPtrConverter.accumulateTargetOffset op).val
      ((op.shape.getD 1 (.static 0)).val)
      = (MakeTensorPtrConverter.accumulateTargetOffset op).val
          % (op.shape.getD 1 (.static 0)).val :=
    Int.tmod_eq_emod ht (le_of_lt hN)
  unfold MakeTensorPtrConverter.createSideBySideCastOps
  simp only [hsz, List.getD_cons_zero, List.getD_cons_succ, OFR.val_dyn,
    List.map_cons, List.map_nil, map_dyn_val, htm]
  simp

/-- Claim C3 witness: N = 10, targetOffset = 7, colSize = 6 give chunk 1 of
width 3 at offset 7 (columns [7, 10)) and chunk 2 of width 3 at the period
base 0 (columns [0, 3)). -/
theorem claim_C3_witness :
    (MakeTensorPtrConverter.createSideBySideCastOps opSideBySideExample).1.offset.val = 7
    ∧ (MakeTensorPtrConverter.createSideBySideCastOps opSideBySideExample).1.sizes.map OFR.val
        = [2, 3]
    ∧ (MakeTensorPtrConverter.createSideBySideCastOps opSideBySideExample).2.offset.val = 0
    ∧ (MakeTensorPtrConverter.createSideBySideCastOps opSideBySideExample).2.sizes.map OFR.val
        = [2, 3] := by
  have h := claim_C3 opSideBySideExample 2 6 7 10 rfl (by decide) (by decide)
    (by decide) (by decide)
  exact ⟨h.1, h.2.1.trans (by decide), h.2.2.1.trans (by decide),
    h.2.2.2.1.trans (by decide)⟩

/-- Claim C4 counterexample: the claim states that the stacked first-chunk
row count is `((modRow + wrapped) - targetOffset) / strideRow` clamped at
`rowSize`; on a stacked descriptor with modRow = 100, strideRow = 10,
targetOffset = 0 and rowSize = 2 the code produces 10 rows — no clamping at
rowSize (= 2) happens, and the second chunk gets -8 rows rather than 0. -/
theorem claim_C4_counterexample :
    ((MakeTensorPtrConverter.createStackedCastOps opStackedNoWrap).1.sizes.getD 0
        (.static 0)).val = 10
    ∧ ((MakeTensorPtrConverter.createStackedCastOps opStackedNoWrap).1.sizes.getD 0
        (.static 0)).val
        ≠ min (((100 : Int) + Int.tmod 0 10 - 0).tdiv 10) 2
    ∧ ((MakeTensorPtrConverter.createStackedCastOps opStackedNoWrap).2.sizes.getD 0
        (.static 0)).val = -8 := by decide

/-- Claim C4 (amended): for every stacked 2-D split descriptor the
materializer computes `wrapped = targetOffset mod strideRow` and
`d1 = ((modRow + wrapped) - targetOffset) / strideRow` with no clamping
applied (upstream guarantees that a stacked split actually wraps, which is
what keeps `d1 ≤ rowSize` there); chunk 1 is `d1` rows at `targetOffset`,
chunk 2 is `rowSize - d1` rows at `wrapped`, and both keep `colSize` and the
same strides. -/
theorem claim_C4 (op : MakeTensorPtrOp) (rowSize colSize t s M : Int)
    (hsz : op.sizes = [rowSize, colSize])
    (htv : t = (MakeTensorPtrConverter.accumulateTargetOffset op).val)
    (hsv : s = (op.strides.getD 0 (.static 0)).val)
    (hMv : M = (op.shape.getD 0 (.static 0)).val)
    (ht : 0 ≤ t) (hs : 0 < s) (htM : t ≤ M) :
    (MakeTensorPtrConverter.createStackedCastOps op).1.offset.val = t
    ∧ (MakeTensorPtrConverter.createStackedCastOps op).1.sizes.map OFR.val
        = [(M + t % s - t) / s, colSize]
    ∧ (MakeTensorPtrConverter.createStackedCastOps op).2.offset.val = t % s
    ∧ (MakeTensorPtrConverter.createStackedCastOps op).2.sizes.map OFR.val
        = [rowSize - (M + t % s - t) / s, colSize]
    ∧ (MakeTensorPtrConverter.createStackedCastOps op).1.strides.map OFR.val
        = [s, (op.strides.getD 1 (.static 0)).val]
    ∧ (MakeTensorPtrConverter.createStackedCastOps op).2.strides.map OFR.val
        = [s, (op.strides.getD 1 (.static 0)).val] := by
  subst htv hsv hMv
  have hw0 : 0 ≤ (MakeTensorPtrConverter.accumulateTargetOffset op).val
      % (op.strides.getD 0 (.static 0)).val :=
    Int.emod_nonneg _ (ne_of_gt hs)
  have htm : Int.tmod (MakeTensorPtrConverter.accumulateTargetOffset op).val
      ((op.strides.getD 0 (.static 0)).val)
      = (MakeTensorPtrConverter.accumulateTargetOffset op).val
          % (op.strides.getD 0 (.static 0)).val :=
    Int.tmod_eq_emod ht (le_of_lt hs)
  have hdiv : Int.tdiv ((op.shape.getD 0 (.static 0)).val
        + (MakeTensorPtrConverter.accumulateTargetOffset op).val
            % (op.strides.getD 0 (.static 0)).val
        - (MakeTensorPtrConverter.accumulateTargetOffset op).val)
        ((op.strides.getD 0 (.static 0)).val)
      = ((op.shape.getD 0 (.static 0)).val
        + (MakeTensorPtrConverter.accumulateTargetOffset op).val
            % (op.strides.getD 0 (.static 0)).val
        - (MakeTensorPtrConverter.accumulateTargetOffset op).val)
        / (op.strides.getD 0 (.static 0)).val :=
    Int.tdiv_eq_ediv (by omega) (le_of_lt hs)
  unfold MakeTensorPtrConverter.createStackedCastOps
  simp only [hsz, List.getD_cons_zero, List.getD_cons_succ, OFR.val_dyn,
    List.map_cons, List.map_nil, htm, hdiv]
  simp

/-- Claim C4 witness: strideRow = 10, modRow = 40, targetOffset = 25,
sizes 4×3 give chunk 1 of 2 rows at offset 25 and chunk 2 of 2 rows at
offset 5. -/
theorem claim_C4_witness :
    (MakeTensorPtrConverter.createStackedCastOps opStackedExample).1.offset.val = 25
    ∧ (MakeTensorPtrConverter.createStackedCastOps opStackedExample).1.sizes.map OFR.val
        = [2, 3]
    ∧ (MakeTensorPtrConverter.createStackedCastOps opStackedExample).2.offset.val = 5
    ∧ (MakeTensorPtrConverter.createStackedCastOps opStackedExample).2.sizes.map OFR.val
        = [2, 3] := by
  have h := claim_C4 opStackedExample 4 3 25 10 40 rfl (by decide) (by decide)
    (by decide) (by decide) (by decide) (by decide)
  exact ⟨h.1, h.2.1.trans (by decide), h.2.2.1.trans (by decide),
    h.2.2.2.1.trans (by decide)⟩

/-- Claim C6: for every masked load that carries a fill value, the lowering
pre-fills the entire destination with the fill value if and only if some
dimension's valid extent is strictly smaller than the full extent (the
or-accumulated comparison), and it does so before the data copy: after
lowering, every destination element inside the mask region equals the
corresponding source element and every in-shape element outside the mask
region equals the fill value. -/
theorem claim_C6 {α : Type} (shape maskDims : List Int) (fill : α)
    (src uninit : List Int → α)
    (hlen : maskDims.length = shape.length) :
    ((LoadConverter.rewriteMaskedLoad shape maskDims (some fill) src uninit).fillExecuted
        = true
      ↔ ∃ i, i < shape.length ∧ maskDims.getD i 0 < shape.getD i 0)
    ∧ ∀ idx : List Int, inRegionB shape idx = true →
        (inRegionB maskDims idx = true →
          (LoadConverter.rewriteMaskedLoad shape maskDims (some fill) src uninit).final idx
            = src idx)
        ∧ (inRegionB maskDims idx = false →
          (LoadConverter.rewriteMaskedLoad shape maskDims (some fill) src uninit).final idx
            = fill) := by
  constructor
  · simpa [LoadConverter.rewriteMaskedLoad] using orAccum_eq_true_iff shape maskDims
  · intro idx hsh
    constructor
    · intro hm
      simp [LoadConverter.rewriteMaskedLoad, hm]
    · intro hm
      obtain ⟨hl1, hpt⟩ := (inRegionB_eq_true_iff shape idx).mp hsh
      have hacc : LoadConverter.orAccum shape maskDims = true := by
        rw [orAccum_eq_true_iff]
        have hlen2 : idx.length = maskDims.length := by omega
        have hnot : ¬ ∀ i, i < maskDims.length →
            0 ≤ idx.getD i 0 ∧ idx.getD i 0 < maskDims.getD i 0 := by
          intro hall
          have := (inRegionB_eq_true_iff maskDims idx).mpr ⟨hlen2, hall⟩
          rw [hm] at this
          cases this
        push_neg at hnot
        obtain ⟨i, hi, hbad⟩ := hnot
        have hish : i < shape.length := by omega
        have hpti := hpt i hish
        refine ⟨i, hish, ?_⟩
        have := hbad hpti.1
        omega
      simp [LoadConverter.rewriteMaskedLoad, hm, hacc]

/-- Claim C6 witness: shape [2, 2], mask extents [1, 2], fill 42: the fill
runs, the in-mask element [0, 1] holds the source value and the out-of-mask
element [1, 0] holds 42. -/
theorem claim_C6_witness :
    (LoadConverter.rewriteMaskedLoad [2, 2] [1, 2] (some (42 : Int))
        srcExample uninitExample).fillExecuted = true
    ∧ (LoadConverter.rewriteMaskedLoad [2, 2] [1, 2] (some (42 : Int))
        srcExample uninitExample).final [0, 1] = srcExample [0, 1]
    ∧ (LoadConverter.rewriteMaskedLoad [2, 2] [1, 2] (some (42 : Int))
        srcExample uninitExample).final [1, 0] = 42 := by
  have h := claim_C6 [2, 2] [1, 2] (42 : Int) srcExample uninitExample rfl
  exact ⟨h.1.mpr ⟨0, by decide, by decide⟩,
    (h.2 [0, 1] (by decide)).1 (by decide),
    (h.2 [1, 0] (by decide)).2 (by decide)⟩

/-- Claim C1: every split descriptor decomposes into exactly two buffer views
whose sizes along the wrapping axis sum to the requested size along that
axis, whose sizes along the other axis equal the original request, and which
jointly and exactly cover the logical wrapped region with no overlap and no
gap (stated per wrapping axis: columns for side-by-side, rows for stacked),
assuming the start offset lies within the first period and the split
descriptor's region actually straddles the wrap boundary. -/
theorem claim_C1 :
    (∀ (op : MakeTensorPtrOp) (rowSize colSize : Int),
      op.sizes = [rowSize, colSize] →
      0 ≤ (MakeTensorPtrConverter.accumulateTargetOffset op).val →
      0 < (op.shape.getD 1 (.static 0)).val →
      0 ≤ colSize →
      colSize ≤ (op.shape.getD 1 (.static 0)).val →
      sideBySideCorrect op rowSize colSize)
    ∧ (∀ (op : MakeTensorPtrOp) (rowSize colSize R : Int),
      op.sizes = [rowSize, colSize] →
      0 ≤ (MakeTensorPtrConverter.accumulateTargetOffset op).val →
      0 < (op.strides.getD 0 (.static 0)).val →
      (op.shape.getD 0 (.static 0)).val
          = R * (op.strides.getD 0 (.static 0)).val →
      (MakeTensorPtrConverter.accumulateTargetOffset op).val
          < (op.shape.getD 0 (.static 0)).val →
      0 ≤ rowSize → rowSize ≤ R →
      R ≤ (MakeTensorPtrConverter.accumulateTargetOffset op).val
            / (op.strides.getD 0 (.static 0)).val + rowSize →
      stackedCorrect op rowSize colSize R) := by
  constructor
  · intro op rowSize colSize hsz ht hN hc0 hcN
    have htm : Int.tmod (MakeTensorPtrConverter.accumulateTargetOffset op).val
        ((op.shape.getD 1 (.static 0)).val)
        = (MakeTensorPtrConverter.accumulateTargetOffset op).val
            % (op.shape.getD 1 (.static 0)).val :=
      Int.tmod_eq_emod ht (le_of_lt hN)
    have hx0 : 0 ≤ (MakeTensorPtrConverter.accumulateTargetOffset op).val
        % (op.shape.getD 1 (.static 0)).val :=
      Int.emod_nonneg _ (ne_of_gt hN)
    have hxN : (MakeTensorPtrConverter.accumulateTargetOffset op).val
        % (op.shape.getD 1 (.static 0)).val
        < (op.shape.getD 1 (.static 0)).val :=
      Int.emod_lt_of_pos _ hN
    have hw := wrap_cover hN hx0 hxN hc0 hcN rfl rfl
    unfold sideBySideCorrect MakeTensorPtrConverter.createSideBySideCastOps
    simp only [hsz, List.getD_cons_zero, List.getD_cons_succ, OFR.val_dyn, htm]
    exact ⟨by ring, trivial, trivial, hw.1, hw.2⟩
  · intro op rowSize colSize R hsz ht hs hMR htM hr0 hrR hstr
    have htm : Int.tmod (MakeTensorPtrConverter.accumulateTargetOffset op).val
        ((op.strides.getD 0 (.static 0)).val)
        = (MakeTensorPtrConverter.accumulateTargetOffset op).val
            % (op.strides.getD 0 (.static 0)).val :=
      Int.tmod_eq_emod ht (le_of_lt hs)
    have hq0 : 0 ≤ (MakeTensorPtrConverter.accumulateTargetOffset op).val
        / (op.strides.getD 0 (.static 0)).val :=
      Int.ediv_nonneg ht (le_of_lt hs)
    have hqR : (MakeTensorPtrConverter.accumulateTargetOffset op).val
        / (op.strides.getD 0 (.static 0)).val < R :=
      (Int.ediv_lt_iff_lt_mul hs).mpr (hMR ▸ htM)
    have hts : (op.strides.getD 0 (.static 0)).val
        * ((MakeTensorPtrConverter.accumulateTargetOffset op).val
            / (op.strides.getD 0 (.static 0)).val)
        + (MakeTensorPtrConverter.accumulateTargetOffset op).val
            % (op.strides.getD 0 (.static 0)).val
        = (MakeTensorPtrConverter.accumulateTargetOffset op).val :=
      Int.ediv_add_emod _ _
    have hnum : (op.shape.getD 0 (.static 0)).val
        + (MakeTensorPtrConverter.accumulateTargetOffset op).val
            % (op.strides.getD 0 (.static 0)).val
        - (MakeTensorPtrConverter.accumulateTargetOffset op).val
        = (R - (MakeTensorPtrConverter.accumulateTargetOffset op).val
            / (op.strides.getD 0 (.static 0)).val)
          * (op.strides.getD 0 (.static 0)).val := by
      rw [hMR]
      linarith [hts]
    have hd1 : Int.tdiv ((op.shape.getD 0 (.static 0)).val
          + Int.tmod (MakeTensorPtrConverter.accumulateTargetOffset op).val
              ((op.strides.getD 0 (.static 0)).val)
          - (MakeTensorPtrConverter.accumulateTargetOffset op).val)
          ((op.strides.getD 0 (.static 0)).val)
        = R - (MakeTensorPtrConverter.accumulateTargetOffset op).val
            / (op.strides.getD 0 (.static 0)).val := by
      rw [htm, hnum,
        Int.tdiv_eq_ediv
          (mul_nonneg (sub_nonneg.mpr (le_of_lt hqR)) (le_of_lt hs))
          (le_of_lt hs)]
      exact Int.mul_ediv_cancel _ (ne_of_gt hs)
    have hR0 : 0 < R := lt_of_le_of_lt hq0 hqR
    have hd1v : R - (MakeTensorPtrConverter.accumulateTargetOffset op).val
          / (op.strides.getD 0 (.static 0)).val
        = min ((MakeTensorPtrConverter.accumulateTargetOffset op).val
            / (op.strides.getD 0 (.static 0)).val + rowSize) R
          - (MakeTensorPtrConverter.accumulateTargetOffset op).val
            / (op.strides.getD 0 (.static 0)).val := by
      rw [min_eq_right hstr]
    have hw := wrap_cover hR0 hq0 hqR hr0 hrR hd1v rfl
    unfold stackedCorrect MakeTensorPtrConverter.createStackedCastOps
    simp only [hsz, List.getD_cons_zero, List.getD_cons_succ, OFR.val_dyn, hd1]
    exact ⟨by ring, trivial, trivial, hw.1, hw.2⟩

/-- Claim C1 witness: the side-by-side descriptor with offset 7, modulus 10
and sizes 2×6, and the stacked descriptor with offset 25, row stride 10,
linearized row bound 40 and sizes 4×3. -/
theorem claim_C1_witness :
    sideBySideCorrect opSideBySideExample 2 6
    ∧ stackedCorrect opStackedExample 4 3 4 :=
  ⟨claim_C1.1 opSideBySideExample 2 6 rfl (by decide) (by decide) (by decide)
      (by decide),
    claim_C1.2 opStackedExample 4 3 4 rfl (by decide) (by decide) (by decide)
      (by decide) (by decide) (by decide) (by decide)⟩
